import Mathlib

/-!
Verification of the EasyApplyBot SaaS job control plane against its
specification. The repository ships only the web-form collaborator
(`src/frontend/pages/index.js`) and deployment scaffolding; the control
plane itself (Job Store, Control API, Worker Runtime) is specified in
spec.md §3–§5 but has no implementation under src/, so those parts are
modelled directly from the spec's words. The frontend handlers are
embedded from the JavaScript source.
-/

namespace JobControl

/-- Modelled from the spec: the six job lifecycle states of §3
(the Job `state` field); src/ has no control-plane implementation. -/
inductive JobState where
  | PENDING
  | RUNNING
  | PAUSED
  | CANCELLED
  | SUCCEEDED
  | FAILED
deriving DecidableEq, Repr

/-- Modelled from the spec: `CANCELLED`, `SUCCEEDED` and `FAILED` are the
terminal states of the §4.2 state machine. -/
def JobState.isTerminal : JobState → Bool
  | .CANCELLED => true
  | .SUCCEEDED => true
  | .FAILED => true
  | _ => false

/-- Modelled from the spec: the Job record of §3 (id, positions, locations,
state, owner, timestamps, pause_until, error); src/ has no Job Store. -/
structure Job where
  id : Nat
  positions : List String
  locations : List String
  state : JobState
  owner : Option Nat
  created_at : Nat
  updated_at : Nat
  pause_until : Option Nat
  error : Option String
deriving DecidableEq, Repr

/-- Modelled from the spec: the §7 error taxonomy surfaced by the Control
API (`ClaimLost` is never surfaced, so it is not an API error here). -/
inductive ApiError where
  | ValidationError
  | InvalidState
  | StoreUnavailable
deriving DecidableEq, Repr

/-- Modelled from the spec: the HTTP status each §7 error surfaces as. -/
def ApiError.status : ApiError → Nat
  | .ValidationError => 400
  | .InvalidState => 409
  | .StoreUnavailable => 503

/-- Modelled from the spec: the directed transition graph of §4.2. -/
def allowedEdge : JobState → JobState → Bool
  | .PENDING, .RUNNING => true
  | .RUNNING, .PAUSED => true
  | .PAUSED, .RUNNING => true
  | .RUNNING, .SUCCEEDED => true
  | .RUNNING, .FAILED => true
  | .PENDING, .CANCELLED => true
  | .RUNNING, .CANCELLED => true
  | .PAUSED, .CANCELLED => true
  | _, _ => false

deriving instance DecidableEq for Except

/-- Modelled from the spec: the result of `SubmitJob` (§4.1) — the API
outcome, the Job Store record created (if any), and the dispatch messages
published on the Command Bus in that execution. -/
structure SubmitResult where
  outcome : Except ApiError Nat
  record : Option Job
  published : List Nat
deriving DecidableEq, Repr

/-- Modelled from the spec: `SubmitJob(positions, locations)` of §4.1;
src/ has no Control API. Validates both sequences non-empty (else
`ValidationError`), then writes a `PENDING` Job to the Job Store —
`storeOk` says whether the durability layer is reachable; on store
failure it fails with `StoreUnavailable` and publishes nothing — and
only after a durable write publishes the dispatch message `{job_id}`. -/
def SubmitJob (positions locations : List String) (storeOk : Bool)
    (id now : Nat) : SubmitResult :=
  if positions.isEmpty || locations.isEmpty then
    { outcome := .error .ValidationError, record := none, published := [] }
  else if storeOk then
    { outcome := .ok id
      record := some
        { id := id, positions := positions, locations := locations
          state := .PENDING, owner := none
          created_at := now, updated_at := now
          pause_until := none, error := none }
      published := [id] }
  else
    { outcome := .error .StoreUnavailable, record := none, published := [] }

/-- Modelled from the spec: `PauseJob(job_id, duration)` of §4.1; src/ has
no Control API. Writes `pause_until = now + duration` only if the job is
currently `RUNNING`; otherwise fails with `InvalidState` leaving the
record unchanged. -/
def PauseJob (now duration : Nat) (j : Job) : Except ApiError Job :=
  if j.state = .RUNNING then
    .ok { j with pause_until := some (now + duration) }
  else
    .error .InvalidState

/-- Modelled from the spec: `CancelJob(job_id)` of §4.1; src/ has no
Control API. Writes `state = CANCELLED` unconditionally unless already
terminal (then `InvalidState`); per §3/§4.3 every terminal transition
clears `owner` and `pause_until`. -/
def CancelJob (now : Nat) (j : Job) : Except ApiError Job :=
  if j.state.isTerminal then
    .error .InvalidState
  else
    .ok { j with state := .CANCELLED, owner := none, pause_until := none,
                 updated_at := now }

/-- Modelled from the spec: the worker claim step of §4.3 item 2; src/ has
no Worker Runtime. A conditional update setting `owner = self` and
`state = RUNNING`, succeeding only if the current `state = PENDING` and
`owner` is empty; on a lost race the job is untouched (`none`). -/
def claimJob (w now : Nat) (j : Job) : Option Job :=
  if j.state = .PENDING ∧ j.owner = none then
    some { j with state := .RUNNING, owner := some w, updated_at := now }
  else
    none

/-- Modelled from the spec: a claim attempt as observed by the store —
the (possibly unchanged) record plus whether the attempt won the race. -/
def claimAttempt (w now : Nat) (j : Job) : Job × Bool :=
  match claimJob w now j with
  | some j2 => (j2, true)
  | none => (j, false)

/-- Modelled from the spec: a sequence of claim attempts on the same job
record (concurrent attempts serialized by the store's conditional-update
primitive, §5); returns the final record and how many attempts won. -/
def runClaims : List (Nat × Nat) → Job → Job × Nat
  | [], j => (j, 0)
  | (w, t) :: rest, j =>
    match claimAttempt w t j with
    | (j2, won) =>
      match runClaims rest j2 with
      | (jf, n) => (jf, (if won then 1 else 0) + n)

/-- Modelled from the spec: the worker checkpoint reaction to an observed
cancel (§4.3 item 3a); src/ has no Worker Runtime. The owning worker
abandons work and writes `CANCELLED` (if not already terminal), releasing
ownership; otherwise the record is untouched. -/
def workerCancelCheckpoint (w now : Nat) (j : Job) : Job :=
  if j.owner = some w ∧ j.state.isTerminal = false then
    { j with state := .CANCELLED, owner := none, pause_until := none,
             updated_at := now }
  else j

/-- Modelled from the spec: the worker pause transition of §4.3 item 3b
(`pause_until` set and in the future → `RUNNING` becomes `PAUSED`). -/
def workerPause (w now : Nat) (j : Job) : Job :=
  if j.owner = some w ∧ j.state = .RUNNING then
    { j with state := .PAUSED, updated_at := now }
  else j

/-- Modelled from the spec: the worker resume transition of §4.3 item 3b
(`pause_until` elapsed → `PAUSED` becomes `RUNNING` again). -/
def workerResume (w now : Nat) (j : Job) : Job :=
  if j.owner = some w ∧ j.state = .PAUSED then
    { j with state := .RUNNING, pause_until := none, updated_at := now }
  else j

/-- Modelled from the spec: the worker completion write of §4.3 item 4;
src/ has no Worker Runtime. Conditionally writes `SUCCEEDED` (or `FAILED`
with the error message) only if the current state is still `RUNNING` —
the optimistic re-check guarding against a late cancellation race —
clearing `owner` and `pause_until` on the terminal transition. -/
def workerComplete (w now : Nat) (ok : Bool) (msg : String) (j : Job) : Job :=
  if j.owner = some w ∧ j.state = .RUNNING then
    if ok then
      { j with state := .SUCCEEDED, owner := none, pause_until := none,
               updated_at := now }
    else
      { j with state := .FAILED, owner := none, pause_until := none,
               error := some msg, updated_at := now }
  else j

/-- Modelled from the spec: one store-level step of the control plane on a
single Job record — any Control API write or worker write of §4.1/§4.3. -/
inductive Step : Job → Job → Prop
  | claim (w now : Nat) {j j2 : Job} :
      claimJob w now j = some j2 → Step j j2
  | apiPause (now duration : Nat) {j j2 : Job} :
      PauseJob now duration j = .ok j2 → Step j j2
  | apiCancel (now : Nat) {j j2 : Job} :
      CancelJob now j = .ok j2 → Step j j2
  | wCancel (w now : Nat) {j : Job} :
      Step j (workerCancelCheckpoint w now j)
  | wPause (w now : Nat) {j : Job} :
      Step j (workerPause w now j)
  | wResume (w now : Nat) {j : Job} :
      Step j (workerResume w now j)
  | wComplete (w now : Nat) (ok : Bool) (msg : String) {j : Job} :
      Step j (workerComplete w now ok msg j)

/-- Zero or more control-plane steps (reachability between job records). -/
inductive Steps : Job → Job → Prop
  | refl (j : Job) : Steps j j
  | tail {j k l : Job} : Steps j k → Step k l → Steps j l

end JobControl

namespace Frontend

/-- JavaScript `String.prototype.split` with the one-character separator
`','` and no limit, as used by `handleSubmit` in
src/frontend/pages/index.js: splits at every comma; the empty string
yields the one-element list containing the empty string. Character-list
worker for the recursion. -/
def splitCommaAux : List Char → List (List Char)
  | [] => [[]]
  | c :: rest =>
    if c = ',' then [] :: splitCommaAux rest
    else
      match splitCommaAux rest with
      | [] => [[c]]
      | g :: gs => (c :: g) :: gs

/-- JavaScript `field.split(',')` on a Lean `String`. -/
def splitComma (s : String) : List String :=
  (splitCommaAux s.data).map (fun l => l.asString)

/-- The JSON body sent by the form's submit handler
(src/frontend/pages/index.js lines 9–16). -/
structure SubmitBody where
  positions : List String
  locations : List String
deriving DecidableEq, Repr

/-- `handleSubmit` of src/frontend/pages/index.js: builds the POST body
from the two text fields, comma-splitting each. -/
def handleSubmitBody (positionsField locationsField : String) : SubmitBody :=
  { positions := splitComma positionsField
    locations := splitComma locationsField }

/-- An HTTP request as issued by the frontend's `fetch` calls. -/
structure HttpRequest where
  url : String
  method : String
  body : Option String
deriving DecidableEq, Repr

/-- An HTTP response as seen by the frontend handlers. -/
structure HttpResponse where
  ok : Bool
  content : String
deriving DecidableEq, Repr

/-- The request issued by `triggerPause`
(src/frontend/pages/index.js line 21): a bare POST, no body. -/
def pauseRequest : HttpRequest :=
  { url := "http://localhost:5002/pause", method := "POST", body := none }

/-- The request issued by `triggerCancel`
(src/frontend/pages/index.js line 26): a bare POST, no body. -/
def cancelRequest : HttpRequest :=
  { url := "http://localhost:5002/cancel", method := "POST", body := none }

/-- The alert `triggerPause` shows: on any ok response it reports a fixed
ten-second pause, ignoring the response content (index.js line 22). -/
def triggerPauseAlert (r : HttpResponse) : Option String :=
  if r.ok then some "Bot paused for 10 seconds" else none

/-- The alert `triggerCancel` shows on any ok response (index.js line 27). -/
def triggerCancelAlert (r : HttpResponse) : Option String :=
  if r.ok then some "Application cancelled" else none

end Frontend

namespace JobControl

/-- A freshly submitted job record, used to instantiate the theorems. -/
def jobPending : Job :=
  { id := 1, positions := ["engineer"], locations := ["remote"]
    state := .PENDING, owner := none, created_at := 0, updated_at := 0
    pause_until := none, error := none }

/-- `jobPending` after worker 7 claims it at time 3. -/
def jobRunning1 : Job :=
  { jobPending with state := .RUNNING, owner := some 7, updated_at := 3 }

/-- `jobRunning1` after worker 7 completes it successfully at time 9. -/
def jobSucceeded : Job :=
  { jobRunning1 with state := .SUCCEEDED, owner := none, updated_at := 9 }

/-- A cancelled job record, used to instantiate the theorems. -/
def jobCancelled : Job :=
  { jobPending with state := .CANCELLED, owner := none, updated_at := 5 }

lemma claimJob_some {w now : Nat} {j j2 : Job}
    (h : claimJob w now j = some j2) :
    j.state = .PENDING ∧ j.owner = none ∧
    j2 = { j with state := .RUNNING, owner := some w, updated_at := now } := by
  unfold claimJob at h
  split at h
  · rename_i hc
    exact ⟨hc.1, hc.2, (Option.some.injEq _ _).mp h.symm⟩
  · exact absurd h (by simp)

lemma pauseJob_ok {now duration : Nat} {j j2 : Job}
    (h : PauseJob now duration j = .ok j2) :
    j.state = .RUNNING ∧ j2 = { j with pause_until := some (now + duration) } := by
  unfold PauseJob at h
  split at h
  · rename_i hc
    exact ⟨hc, by cases h; rfl⟩
  · exact absurd h (by simp)

lemma cancelJob_ok {now : Nat} {j j2 : Job}
    (h : CancelJob now j = .ok j2) :
    j.state.isTerminal = false ∧
    j2 = { j with state := .CANCELLED, owner := none, pause_until := none,
                  updated_at := now } := by
  unfold CancelJob at h
  split at h
  · exact absurd h (by simp)
  · rename_i hc
    exact ⟨Bool.not_eq_true _ ▸ (by simpa using hc), by cases h; rfl⟩

/-- Any step out of a terminal state is impossible: a terminal record is
frozen, every operation leaves it exactly as it is. -/
lemma step_terminal_frozen {j j2 : Job} (h : Step j j2)
    (ht : j.state.isTerminal = true) : j2 = j := by
  cases h with
  | claim w now h =>
    obtain ⟨hs, -, -⟩ := claimJob_some h
    rw [hs] at ht
    simp [JobState.isTerminal] at ht
  | apiPause now duration h =>
    obtain ⟨hs, -⟩ := pauseJob_ok h
    rw [hs] at ht
    simp [JobState.isTerminal] at ht
  | apiCancel now h =>
    obtain ⟨hs, -⟩ := cancelJob_ok h
    rw [ht] at hs
    exact absurd hs (by simp)
  | wCancel w now =>
    unfold workerCancelCheckpoint
    split
    · rename_i hc
      rw [ht] at hc
      exact absurd hc.2 (by simp)
    · rfl
  | wPause w now =>
    unfold workerPause
    split
    · rename_i hc
      rw [hc.2] at ht
      simp [JobState.isTerminal] at ht
    · rfl
  | wResume w now =>
    unfold workerResume
    split
    · rename_i hc
      rw [hc.2] at ht
      simp [JobState.isTerminal] at ht
    · rfl
  | wComplete w now ok msg =>
    unfold workerComplete
    split
    · rename_i hc
      rw [hc.2] at ht
      simp [JobState.isTerminal] at ht
    · rfl

/-- Every step either keeps the state or follows an edge of the §4.2
transition graph. -/
lemma step_follows_graph {j j2 : Job} (h : Step j j2) :
    j2.state = j.state ∨ allowedEdge j.state j2.state = true := by
  cases h with
  | claim w now h =>
    obtain ⟨hs, -, hj⟩ := claimJob_some h
    right
    rw [hs, hj]
    rfl
  | apiPause now duration h =>
    obtain ⟨-, hj⟩ := pauseJob_ok h
    left
    rw [hj]
  | apiCancel now h =>
    obtain ⟨hs, hj⟩ := cancelJob_ok h
    right
    rw [hj]
    cases hst : j.state <;> rw [hst] at hs <;>
      simp_all [JobState.isTerminal, allowedEdge]
  | wCancel w now =>
    unfold workerCancelCheckpoint
    split
    · rename_i hc
      right
      cases hst : j.state <;> rw [hst] at hc <;>
        simp_all [JobState.isTerminal, allowedEdge]
    · left; rfl
  | wPause w now =>
    unfold workerPause
    split
    · rename_i hc
      right
      rw [hc.2]
      rfl
    · left; rfl
  | wResume w now =>
    unfold workerResume
    split
    · rename_i hc
      right
      rw [hc.2]
      rfl
    · left; rfl
  | wComplete w now ok msg =>
    unfold workerComplete
    split
    · rename_i hc
      right
      rw [hc.2]
      cases ok <;> rfl
    · left; rfl

/-- A single step preserves the invariant "terminal records have no
owner": every operation that writes a terminal state also clears
`owner`. -/
lemma step_preserves_owner_inv {j j2 : Job} (h : Step j j2)
    (hinv : j.state.isTerminal = true → j.owner = none)
    (ht : j2.state.isTerminal = true) : j2.owner = none := by
  cases h with
  | claim w now h =>
    obtain ⟨-, -, hj⟩ := claimJob_some h
    rw [hj] at ht
    simp [JobState.isTerminal] at ht
  | apiPause now duration h =>
    obtain ⟨-, hj⟩ := pauseJob_ok h
    rw [hj] at ht ⊢
    exact hinv ht
  | apiCancel now h =>
    obtain ⟨-, hj⟩ := cancelJob_ok h
    rw [hj]
  | wCancel w now =>
    unfold workerCancelCheckpoint at ht ⊢
    by_cases hcond : j.owner = some w ∧ j.state.isTerminal = false
    · rw [if_pos hcond]
    · rw [if_neg hcond] at ht ⊢
      exact hinv ht
  | wPause w now =>
    unfold workerPause at ht ⊢
    by_cases hcond : j.owner = some w ∧ j.state = .RUNNING
    · rw [if_pos hcond] at ht
      simp [JobState.isTerminal] at ht
    · rw [if_neg hcond] at ht ⊢
      exact hinv ht
  | wResume w now =>
    unfold workerResume at ht ⊢
    by_cases hcond : j.owner = some w ∧ j.state = .PAUSED
    · rw [if_pos hcond] at ht
      simp [JobState.isTerminal] at ht
    · rw [if_neg hcond] at ht ⊢
      exact hinv ht
  | wComplete w now ok msg =>
    unfold workerComplete at ht ⊢
    by_cases hcond : j.owner = some w ∧ j.state = .RUNNING
    · rw [if_pos hcond]
      cases ok <;> simp
    · rw [if_neg hcond] at ht ⊢
      exact hinv ht

/-- A failed claim attempt, and a sequence of claim attempts starting
from an unclaimable record, leave the record untouched with zero wins. -/
lemma runClaims_unclaimable (ws : List (Nat × Nat)) (j : Job)
    (h : ¬(j.state = .PENDING ∧ j.owner = none)) :
    runClaims ws j = (j, 0) := by
  induction ws with
  | nil => rfl
  | cons wt rest ih =>
    obtain ⟨w, t⟩ := wt
    have hfail : claimJob w t j = none := by
      unfold claimJob
      exact if_neg h
    simp [runClaims, claimAttempt, hfail, ih]

/-- C1. For every job, the `state` field changes only along the edges of
the §4.2 transition graph (PENDING→RUNNING, RUNNING→PAUSED,
PAUSED→RUNNING, RUNNING→SUCCEEDED, RUNNING→FAILED, and
PENDING/RUNNING/PAUSED→CANCELLED); once a job is in a terminal state
(CANCELLED, SUCCEEDED, FAILED), no operation performs any further state
transition on it — indeed no operation changes the record at all. -/
theorem state_transitions_follow_graph (j j2 : Job) (h : Step j j2) :
    (j2.state = j.state ∨ allowedEdge j.state j2.state = true) ∧
    (j.state.isTerminal = true → j2 = j) :=
  ⟨step_follows_graph h, fun ht => step_terminal_frozen h ht⟩

theorem state_transitions_follow_graph_witness :
    (jobRunning1.state = jobPending.state ∨
      allowedEdge jobPending.state jobRunning1.state = true) ∧
    (jobPending.state.isTerminal = true → jobRunning1 = jobPending) :=
  state_transitions_follow_graph jobPending jobRunning1
    (Step.claim 7 3 (by decide))

/-- C2. Once `CancelJob` has written `CANCELLED`, the worker's completion
write is a no-op (it is conditional on the state still being `RUNNING`),
and along every reachable execution the persisted state stays
`CANCELLED` forever: it is never replaced by `SUCCEEDED` or `FAILED`. -/
theorem cancelled_wins_completion_race (j j2 : Job) (w now : Nat)
    (ok : Bool) (msg : String) (hc : j.state = .CANCELLED) :
    workerComplete w now ok msg j = j ∧
    (Steps j j2 → j2.state = .CANCELLED) := by
  constructor
  · unfold workerComplete
    split
    · rename_i hg
      rw [hc] at hg
      exact absurd hg.2 (by simp)
    · rfl
  · intro hsteps
    induction hsteps with
    | refl => exact hc
    | tail hs hstep ih =>
      rw [step_terminal_frozen hstep (by rw [ih]; rfl)]
      exact ih

theorem cancelled_wins_completion_race_witness :
    workerComplete 7 9 true "" jobCancelled = jobCancelled ∧
    (Steps jobCancelled jobCancelled → jobCancelled.state = .CANCELLED) :=
  cancelled_wins_completion_race jobCancelled jobCancelled 7 9 true "" rfl

/-- C3. The claim operation succeeds exactly on a `PENDING`, unowned job,
setting `owner` to the claiming worker and `state` to `RUNNING`; a failed
attempt leaves the record untouched; and of any non-empty sequence of
claim attempts on the same `PENDING` unowned job, exactly one wins. -/
theorem claim_mutual_exclusion (j : Job) (ws : List (Nat × Nat)) :
    (∀ w now j2, claimJob w now j = some j2 →
        j.state = .PENDING ∧ j.owner = none ∧
        j2.state = .RUNNING ∧ j2.owner = some w) ∧
    (∀ w now, claimJob w now j = none → claimAttempt w now j = (j, false)) ∧
    (j.state = .PENDING → j.owner = none → ws ≠ [] →
        (runClaims ws j).2 = 1) := by
  refine ⟨?_, ?_, ?_⟩
  · intro w now j2 h
    obtain ⟨hs, ho, hj⟩ := claimJob_some h
    exact ⟨hs, ho, by rw [hj], by rw [hj]⟩
  · intro w now h
    simp [claimAttempt, h]
  · intro hs ho hne
    cases ws with
    | nil => exact absurd rfl hne
    | cons wt rest =>
      obtain ⟨w, t⟩ := wt
      have hwin : claimJob w t j =
          some { j with state := .RUNNING, owner := some w, updated_at := t } := by
        unfold claimJob
        rw [if_pos ⟨hs, ho⟩]
      have hrest : runClaims rest
          { j with state := .RUNNING, owner := some w, updated_at := t } =
          ({ j with state := .RUNNING, owner := some w, updated_at := t }, 0) :=
        runClaims_unclaimable rest _ (by simp)
      simp [runClaims, claimAttempt, hwin, hrest]

theorem claim_mutual_exclusion_witness :
    (jobPending.state = .PENDING ∧ jobPending.owner = none ∧
      jobRunning1.state = .RUNNING ∧ jobRunning1.owner = some 7) ∧
    (runClaims [(1, 1), (2, 2)] jobPending).2 = 1 :=
  ⟨(claim_mutual_exclusion jobPending [(1, 1), (2, 2)]).1 7 3 jobRunning1
      (by decide),
   (claim_mutual_exclusion jobPending [(1, 1), (2, 2)]).2.2 rfl rfl
      (by decide)⟩

/-- C4. `SubmitJob` fails with `ValidationError` (HTTP 400) and creates
no Job Store record whenever `positions` or `locations` is empty; on any
input where both are non-empty (and the store is reachable) it creates a
Job in state `PENDING` and returns its job id. -/
theorem submit_validates_inputs (positions locations : List String)
    (storeOk : Bool) (id now : Nat) :
    ((positions = [] ∨ locations = []) →
        (SubmitJob positions locations storeOk id now).outcome =
          .error .ValidationError ∧
        (SubmitJob positions locations storeOk id now).record = none) ∧
    (positions ≠ [] → locations ≠ [] → storeOk = true →
        (SubmitJob positions locations storeOk id now).outcome = .ok id ∧
        ∃ j, (SubmitJob positions locations storeOk id now).record = some j ∧
          j.state = .PENDING) ∧
    ApiError.status .ValidationError = 400 := by
  refine ⟨?_, ?_, rfl⟩
  · intro h
    rcases h with h | h
    · subst h
      simp [SubmitJob]
    · subst h
      simp [SubmitJob]
  · intro hp hl hs
    subst hs
    cases positions with
    | nil => exact absurd rfl hp
    | cons a as =>
      cases locations with
      | nil => exact absurd rfl hl
      | cons b bs =>
        refine ⟨by simp [SubmitJob], ?_⟩
        refine ⟨{ id := id, positions := a :: as, locations := b :: bs,
                  state := .PENDING, owner := none, created_at := now,
                  updated_at := now, pause_until := none, error := none },
                by simp [SubmitJob], rfl⟩

theorem submit_validates_inputs_witness :
    ((SubmitJob [] ["remote"] true 1 0).outcome = .error .ValidationError ∧
      (SubmitJob [] ["remote"] true 1 0).record = none) ∧
    ((SubmitJob ["engineer"] ["remote"] true 1 0).outcome = .ok 1 ∧
      ∃ j, (SubmitJob ["engineer"] ["remote"] true 1 0).record = some j ∧
        j.state = .PENDING) :=
  ⟨(submit_validates_inputs [] ["remote"] true 1 0).1 (Or.inl rfl),
   (submit_validates_inputs ["engineer"] ["remote"] true 1 0).2.1
      (by decide) (by decide) rfl⟩

/-- C5. When the Job Store write inside `SubmitJob` fails, the call fails
with `StoreUnavailable` (HTTP 503) and has no side effects: no record is
created and no dispatch message is published on the Command Bus. -/
theorem submit_store_failure_no_side_effects (positions locations : List String)
    (id now : Nat) (hp : positions ≠ []) (hl : locations ≠ []) :
    (SubmitJob positions locations false id now).outcome =
      .error .StoreUnavailable ∧
    (SubmitJob positions locations false id now).record = none ∧
    (SubmitJob positions locations false id now).published = [] ∧
    ApiError.status .StoreUnavailable = 503 := by
  cases positions with
  | nil => exact absurd rfl hp
  | cons a as =>
    cases locations with
    | nil => exact absurd rfl hl
    | cons b bs => exact ⟨by simp [SubmitJob], by simp [SubmitJob],
        by simp [SubmitJob], rfl⟩

theorem submit_store_failure_no_side_effects_witness :
    (SubmitJob ["engineer"] ["remote"] false 1 0).outcome =
      .error .StoreUnavailable ∧
    (SubmitJob ["engineer"] ["remote"] false 1 0).record = none ∧
    (SubmitJob ["engineer"] ["remote"] false 1 0).published = [] ∧
    ApiError.status .StoreUnavailable = 503 :=
  submit_store_failure_no_side_effects ["engineer"] ["remote"] 1 0
    (by decide) (by decide)

/-- C6. `PauseJob` writes `pause_until = now + duration` to the record
exactly when the job is currently `RUNNING`; in every other state it
fails with `InvalidState` (HTTP 409), leaving the record unchanged. -/
theorem pause_only_running (j : Job) (now duration : Nat) :
    (j.state = .RUNNING →
        PauseJob now duration j =
          .ok { j with pause_until := some (now + duration) }) ∧
    (j.state ≠ .RUNNING → PauseJob now duration j = .error .InvalidState) ∧
    ApiError.status .InvalidState = 409 := by
  refine ⟨?_, ?_, rfl⟩
  · intro h
    unfold PauseJob
    rw [if_pos h]
  · intro h
    unfold PauseJob
    rw [if_neg h]

theorem pause_only_running_witness :
    PauseJob 4 10 jobRunning1 =
      .ok { jobRunning1 with pause_until := some 14 } ∧
    PauseJob 4 10 jobPending = .error .InvalidState :=
  ⟨(pause_only_running jobRunning1 4 10).1 rfl,
   (pause_only_running jobPending 4 10).2.1 (by decide)⟩

/-- C7. `CancelJob` writes `state = CANCELLED` for every job in
`PENDING`, `RUNNING` or `PAUSED` (exactly the non-terminal states), and
fails with `InvalidState` (HTTP 409), leaving the job unchanged, exactly
when the job is already terminal (CANCELLED, SUCCEEDED or FAILED). -/
theorem cancel_unless_terminal (j : Job) (now : Nat) :
    (j.state.isTerminal = false →
        CancelJob now j = .ok { j with state := .CANCELLED, owner := none,
                                       pause_until := none, updated_at := now }) ∧
    (j.state.isTerminal = true → CancelJob now j = .error .InvalidState) ∧
    ((j.state = .PENDING ∨ j.state = .RUNNING ∨ j.state = .PAUSED) ↔
        j.state.isTerminal = false) ∧
    ApiError.status .InvalidState = 409 := by
  refine ⟨?_, ?_, ?_, rfl⟩
  · intro h
    unfold CancelJob
    rw [if_neg (by simp [h])]
  · intro h
    unfold CancelJob
    rw [if_pos h]
  · cases j.state <;> simp [JobState.isTerminal]

theorem cancel_unless_terminal_witness :
    CancelJob 5 jobPending = .ok jobCancelled ∧
    CancelJob 5 jobCancelled = .error .InvalidState :=
  ⟨((cancel_unless_terminal jobPending 5).1 rfl).trans (by decide),
   (cancel_unless_terminal jobCancelled 5).2.1 rfl⟩

/-- C8. Every transition of a job into a terminal state also clears the
`owner` field; consequently, starting from any record satisfying the
invariant (in particular any fresh `PENDING` record), every reachable
record whose state is terminal has an empty owner. -/
theorem terminal_states_have_no_owner (j j2 j3 : Job) :
    (Step j j2 → j.state.isTerminal = false → j2.state.isTerminal = true →
        j2.owner = none) ∧
    ((j.state.isTerminal = true → j.owner = none) → Steps j j3 →
        j3.state.isTerminal = true → j3.owner = none) := by
  constructor
  · intro hstep hnt ht
    exact step_preserves_owner_inv hstep (fun h => absurd h (by simp [hnt])) ht
  · intro hinv hsteps
    induction hsteps with
    | refl => exact hinv
    | tail hs hstep ih => exact step_preserves_owner_inv hstep ih

theorem terminal_states_have_no_owner_witness :
    jobSucceeded.owner = none ∧ jobCancelled.owner = none := by
  have hstep : Step jobRunning1 (workerComplete 7 9 true "" jobRunning1) :=
    Step.wComplete 7 9 true ""
  rw [show workerComplete 7 9 true "" jobRunning1 = jobSucceeded from by decide]
    at hstep
  exact ⟨(terminal_states_have_no_owner jobRunning1 jobSucceeded jobSucceeded).1
      hstep rfl rfl,
    (terminal_states_have_no_owner jobCancelled jobCancelled jobCancelled).2
      (fun _ => rfl) (Steps.refl _) rfl⟩

end JobControl

namespace Frontend

/-- `split` at a one-character separator never yields the empty list:
there is always at least one (possibly empty) segment. -/
lemma splitCommaAux_ne_nil (cs : List Char) : splitCommaAux cs ≠ [] := by
  induction cs with
  | nil => simp [splitCommaAux]
  | cons c rest ih =>
    unfold splitCommaAux
    split
    · simp
    · cases h : splitCommaAux rest <;> simp

/-- `field.split(',')` never yields the empty array. -/
lemma splitComma_ne_nil (s : String) : splitComma s ≠ [] := by
  unfold splitComma
  simp only [ne_eq, List.map_eq_nil_iff]
  exact splitCommaAux_ne_nil s.data

/-- C9. The form's submit handler sends `positions` and `locations` as
the comma-split of the respective text field; on the empty field the
sent array is `[""]` — one empty-string element, never the empty list —
so the form never produces the empty-sequence input that `SubmitJob`'s
validation rejects, only lists that may contain empty-string elements. -/
theorem form_never_sends_empty_sequences (p l : String) (storeOk : Bool)
    (id now : Nat) :
    handleSubmitBody p l =
      { positions := splitComma p, locations := splitComma l } ∧
    splitComma "" = [""] ∧
    (handleSubmitBody p l).positions ≠ [] ∧
    (handleSubmitBody p l).locations ≠ [] ∧
    (JobControl.SubmitJob (handleSubmitBody p l).positions
        (handleSubmitBody p l).locations storeOk id now).outcome ≠
      Except.error JobControl.ApiError.ValidationError := by
  refine ⟨rfl, by decide, splitComma_ne_nil p, splitComma_ne_nil l, ?_⟩
  have hp := splitComma_ne_nil p
  have hl := splitComma_ne_nil l
  simp only [handleSubmitBody]
  cases hP : splitComma p with
  | nil => exact absurd hP hp
  | cons a as =>
    cases hL : splitComma l with
    | nil => exact absurd hL hl
    | cons b bs =>
      cases storeOk <;> simp [JobControl.SubmitJob]

theorem form_never_sends_empty_sequences_witness :
    splitComma "" = [""] :=
  (form_never_sends_empty_sequences "" "" true 1 0).2.1

/-- C10. The form's pause and cancel requests are POSTs with no body —
no job id and no duration — and on any ok response the pause handler
reports a fixed ten-second pause whatever the response content, so job
addressing and pause duration are resolved entirely server-side. -/
theorem control_requests_bodyless (r : HttpResponse) (h : r.ok = true) :
    pauseRequest.body = none ∧ pauseRequest.method = "POST" ∧
    cancelRequest.body = none ∧ cancelRequest.method = "POST" ∧
    triggerPauseAlert r = some "Bot paused for 10 seconds" ∧
    (∀ r2 : HttpResponse, r2.ok = r.ok →
        triggerPauseAlert r2 = triggerPauseAlert r) := by
  refine ⟨rfl, rfl, rfl, rfl, ?_, ?_⟩
  · unfold triggerPauseAlert
    rw [if_pos h]
  · intro r2 h2
    unfold triggerPauseAlert
    rw [h2]

theorem control_requests_bodyless_witness :
    pauseRequest.body = none ∧ cancelRequest.body = none ∧
    triggerPauseAlert { ok := true, content := "irrelevant" } =
      some "Bot paused for 10 seconds" := by
  have h := control_requests_bodyless { ok := true, content := "irrelevant" } rfl
  exact ⟨h.1, h.2.2.1, h.2.2.2.2.1⟩

end Frontend
